import Mathlib

/-!
Shallow embedding of the chess-game analyzer (`analyzer.py`) and proofs
about its move-evaluation and annotation pipeline.

The embedded functions keep the source names where Lean allows it:
`centipawns_to_win_percent`, `calculate_move_accuracy`, `evaluate_position`,
and the body of `annotate_game` (split into the per-ply step `annotateStep`
and the main-line loop `annotateGo`/`annotateGame`).  Evaluations and win
percentages are modelled as real numbers; an unavailable evaluation is
`Option.none`.
-/

namespace Analyzer

/-- The side to move; `board.turn` in the source (`'white'`/`'black'`). -/
inductive Player where
  | white
  | black
deriving DecidableEq

/-- Negative-annotation severities; NAG codes 6 / 2 / 4 in the source
(`?!` inaccuracy, `?` mistake, `??` blunder). -/
inductive Severity where
  | inaccuracy
  | mistake
  | blunder
deriving DecidableEq

/-- Per-player entry of the `stats` dict in `annotate_game`
(keys `6`, `2`, `4`, `'moves'`, `'total_accuracy'`, `'accuracy_count'`). -/
structure PlayerStats where
  inaccuracies : ℕ
  mistakes : ℕ
  blunders : ℕ
  moves : ℕ
  total_accuracy : ℝ
  accuracy_count : ℕ

/-- The whole `stats` dict: one entry per player plus `'total_moves'`. -/
structure Stats where
  white : PlayerStats
  black : PlayerStats
  total_moves : ℕ

def initPlayerStats : PlayerStats :=
  { inaccuracies := 0, mistakes := 0, blunders := 0,
    moves := 0, total_accuracy := 0, accuracy_count := 0 }

def initStats : Stats :=
  { white := initPlayerStats, black := initPlayerStats, total_moves := 0 }

def playerStatsOf (p : Player) (st : Stats) : PlayerStats :=
  match p with
  | .white => st.white
  | .black => st.black

def updatePlayer (p : Player) (f : PlayerStats → PlayerStats) (st : Stats) : Stats :=
  match p with
  | .white => { st with white := f st.white }
  | .black => { st with black := f st.black }

/-- `stats[current_player]['moves'] += 1` (line 159). -/
def incMoves (p : Player) (st : Stats) : Stats :=
  updatePlayer p (fun ps => { ps with moves := ps.moves + 1 }) st

/-- `stats['total_moves'] += 1` (line 160). -/
def incTotal (st : Stats) : Stats :=
  { st with total_moves := st.total_moves + 1 }

/-- Lines 196-197: add a defined accuracy to the mover's running sum and
bump the accuracy counter. -/
def addAccuracy (p : Player) (a : ℝ) (st : Stats) : Stats :=
  updatePlayer p (fun ps =>
    { ps with total_accuracy := ps.total_accuracy + a,
              accuracy_count := ps.accuracy_count + 1 }) st

/-- `stats[current_player][ANNOTATIONS[...]] += 1` (lines 218/222/226). -/
def incSeverity (p : Player) (sev : Severity) (st : Stats) : Stats :=
  updatePlayer p (fun ps =>
    match sev with
    | .inaccuracy => { ps with inaccuracies := ps.inaccuracies + 1 }
    | .mistake => { ps with mistakes := ps.mistakes + 1 }
    | .blunder => { ps with blunders := ps.blunders + 1 }) st

/-- Count for one severity inside a `PlayerStats` record. -/
def severityCount (sev : Severity) (ps : PlayerStats) : ℕ :=
  match sev with
  | .inaccuracy => ps.inaccuracies
  | .mistake => ps.mistakes
  | .blunder => ps.blunders

/-- Sum of the three severity counters; `total_annotations` in
`generate_report` (line 288). -/
def totalAnnotationCount (ps : PlayerStats) : ℕ :=
  ps.inaccuracies + ps.mistakes + ps.blunders

/-- `centipawns_to_win_percent` (lines 58-60): Lichess win-probability
formula, input in centipawns. -/
noncomputable def centipawns_to_win_percent (centipawns : ℝ) : ℝ :=
  50 + 50 * (2 / (1 + Real.exp (-0.00368208 * centipawns)) - 1)

/-- `calculate_move_accuracy` (lines 62-68): Lichess accuracy formula with
the loss floored at 0 and the result clamped to [0, 100]. -/
noncomputable def calculate_move_accuracy
    (win_percent_before win_percent_after : ℝ) : ℝ :=
  let win_percent_loss := win_percent_before - win_percent_after
  let win_percent_loss := if win_percent_loss < 0 then 0 else win_percent_loss
  let accuracy := 103.1668 * Real.exp (-0.04354 * win_percent_loss) - 3.1669
  max 0 (min 100 accuracy)

/-- The score object extracted from the oracle reply
(`info["score"].white()` in `evaluate_position`): a centipawn score, a
mate score carrying its `mate()` distance, or any other kind. -/
inductive Score where
  | cp (centipawns : ℤ)
  | mate (distance : ℤ)
  | other
deriving DecidableEq

/-- `evaluate_position` (lines 70-81), with the engine call abstracted to
the score it returns: centipawns are divided by 100, a mate score
saturates to plus or minus 100 pawns by the sign of its distance, and any
other score kind yields `none` (evaluation unavailable). -/
noncomputable def evaluate_position (score : Score) : Option ℝ :=
  match score with
  | .cp c => some ((c : ℝ) / 100.0)
  | .mate mate_value => some (if mate_value > 0 then (100.0 : ℝ) else -100.0)
  | .other => none

/-- Lines 166-172 / 184-190: convert a defined pawn evaluation (reference
= White perspective) to a mover-perspective win percentage: scale to
centipawns, flip the sign for Black, convert. -/
noncomputable def winPercentOf (player : Player) (evalPawns : ℝ) : ℝ :=
  let cp := evalPawns * 100
  let cp := if player = .black then -cp else cp
  centipawns_to_win_percent cp

/-- Lines 208-211: evaluation change from the mover's perspective
(`eval_after - eval_before` for White, flipped for Black). -/
def swingOf (player : Player) (eval_before eval_after : ℝ) : ℝ :=
  if player = .white then eval_after - eval_before else eval_before - eval_after

/-- The classification chain of lines 216-227: checks proceed from most to
least severe; a non-negative or small swing yields `none`. -/
noncomputable def classifySwing (thresh_inac thresh_mistake thresh_blunder swing : ℝ) :
    Option Severity :=
  if swing ≤ -thresh_blunder then some .blunder
  else if swing ≤ -thresh_mistake then some .mistake
  else if swing ≤ -thresh_inac then some .inaccuracy
  else none

/-- One element of the `annotated_moves` list (lines 231-238). -/
structure AnnotatedMove where
  move_number : ℕ
  player : Player
  move : String
  nag : Severity
  eval_change : ℝ
  move_accuracy : Option ℝ

/-- Mutable state of the `annotate_game` loop: the full-move counter
`move_number` (starts at 1, incremented after each Black ply), the stats
dict, and the `annotated_moves` list. -/
structure DriverState where
  move_number : ℕ
  stats : Stats
  annotated : List AnnotatedMove

/-- Loop body of `annotate_game` (lines 152-243) for a single ply: count
the move, compute mover-perspective win percentages and accuracy when both
evaluations are defined, and past the warm-up (`move_number > 2`) classify
the mover-perspective swing, bumping the severity counter and appending an
`AnnotatedMove` on a hit.  Finally bump `move_number` after a Black ply. -/
noncomputable def annotateStep (thresh_inac thresh_mistake thresh_blunder : ℝ)
    (player : Player) (san : String) (eval_before eval_after : Option ℝ)
    (s : DriverState) : DriverState :=
  let stats1 := incTotal (incMoves player s.stats)
  let win_percent_before : Option ℝ :=
    match eval_before with
    | some e => some (winPercentOf player e)
    | none => none
  let win_percent_after : Option ℝ :=
    match eval_after with
    | some e => some (winPercentOf player e)
    | none => none
  let move_accuracy : Option ℝ :=
    match win_percent_before, win_percent_after with
    | some wb, some wa => some (calculate_move_accuracy wb wa)
    | _, _ => none
  let stats2 :=
    match move_accuracy with
    | some a => addAccuracy player a stats1
    | none => stats1
  let classified : Stats × List AnnotatedMove :=
    if s.move_number > 2 then
      match eval_before, eval_after with
      | some eb, some ea =>
        let eval_change := swingOf player eb ea
        match classifySwing thresh_inac thresh_mistake thresh_blunder eval_change with
        | some sev =>
          (incSeverity player sev stats2,
           s.annotated ++
             [{ move_number := s.move_number, player := player, move := san,
                nag := sev, eval_change := eval_change,
                move_accuracy := move_accuracy }])
        | none => (stats2, s.annotated)
      | _, _ => (stats2, s.annotated)
    else (stats2, s.annotated)
  { move_number := if player = .black then s.move_number + 1 else s.move_number
    stats := classified.1
    annotated := classified.2 }

/-- Side to move after `pos` plies from the initial position: White on
even ply counts (`board.turn` alternation). -/
def playerOfPos (pos : ℕ) : Player :=
  if pos % 2 = 0 then .white else .black

/-- The `while node.variations` loop of `annotate_game`: `pos` counts the
plies already played, so the before-evaluation of the current ply is
`oracle pos` and the after-evaluation is `oracle (pos + 1)`. -/
noncomputable def annotateGo (thresh_inac thresh_mistake thresh_blunder : ℝ)
    (oracle : ℕ → Option ℝ) :
    List String → ℕ → DriverState → DriverState
  | [], _, s => s
  | san :: rest, pos, s =>
    annotateGo thresh_inac thresh_mistake thresh_blunder oracle rest (pos + 1)
      (annotateStep thresh_inac thresh_mistake thresh_blunder
        (playerOfPos pos) san (oracle pos) (oracle (pos + 1)) s)

/-- `annotate_game` (lines 132-245), with the engine abstracted to an
oracle giving the (possibly unavailable) evaluation of each main-line
position, and the main line given by its list of move notations.
`move_number` starts at 1 and the stats start zeroed. -/
noncomputable def annotateGame (thresh_inac thresh_mistake thresh_blunder : ℝ)
    (oracle : ℕ → Option ℝ) (plies : List String) : DriverState :=
  annotateGo thresh_inac thresh_mistake thresh_blunder oracle plies 0
    { move_number := 1, stats := initStats, annotated := [] }

/-- Average-accuracy line of `generate_report` (lines 304-308): the
explicit undefined marker `"N/A"` is modelled as `none`. -/
noncomputable def averageAccuracy (ps : PlayerStats) : Option ℝ :=
  if ps.accuracy_count > 0 then some (ps.total_accuracy / ps.accuracy_count)
  else none

/-- Error-rate computation of `generate_report` (line 298). -/
noncomputable def errorRate (ps : PlayerStats) : ℝ :=
  if ps.moves > 0 then ((totalAnnotationCount ps : ℝ) / ps.moves) * 100 else 0

/-- Fatal setup-time exits of `main` (lines 477-493): missing input file,
missing engine binary, or no game readable from the input. -/
inductive SetupError where
  | inputNotFound
  | engineNotFound
  | gameUnreadable
deriving DecidableEq

/-- The guard chain of `main` before the driver runs (lines 477-499):
input-file existence, engine existence, and `read_game` returning `None`
are the only checks; the parsed main line passes through untouched. -/
def mainSetup (inputExists engineExists : Bool)
    (parsedGame : Option (List String)) : Except SetupError (List String) :=
  if !inputExists then .error .inputNotFound
  else if !engineExists then .error .engineNotFound
  else
    match parsedGame with
    | none => .error .gameUnreadable
    | some g => .ok g

/-- `main`'s pipeline (lines 475-508): run the setup guards, then hand the
main line and the threshold arguments, unmodified, to `annotate_game`. -/
noncomputable def runAnalysis (inputExists engineExists : Bool)
    (parsedGame : Option (List String))
    (thresh_inac thresh_mistake thresh_blunder : ℝ)
    (oracle : ℕ → Option ℝ) : Except SetupError DriverState :=
  (mainSetup inputExists engineExists parsedGame).map
    (annotateGame thresh_inac thresh_mistake thresh_blunder oracle)

/-- Whether an `Except` result is a success. -/
def setupSucceeded {ε α : Type} : Except ε α → Bool
  | .ok _ => true
  | .error _ => false

/-- Reference description of which single ply produces which annotated
entries, phrased directly in terms of the ply's position index `pos`
(0-based; ply number `pos + 1`, full-move number `pos / 2 + 1`).  Used to
characterise the `annotated_moves` list produced by the driver. -/
noncomputable def plyEntry (thresh_inac thresh_mistake thresh_blunder : ℝ)
    (pos : ℕ) (san : String) (eval_before eval_after : Option ℝ) :
    List AnnotatedMove :=
  if pos / 2 + 1 > 2 then
    match eval_before, eval_after with
    | some eb, some ea =>
      match classifySwing thresh_inac thresh_mistake thresh_blunder
          (swingOf (playerOfPos pos) eb ea) with
      | some sev =>
        [{ move_number := pos / 2 + 1, player := playerOfPos pos, move := san,
           nag := sev, eval_change := swingOf (playerOfPos pos) eb ea,
           move_accuracy := some (calculate_move_accuracy
             (winPercentOf (playerOfPos pos) eb)
             (winPercentOf (playerOfPos pos) ea)) }]
      | none => []
    | _, _ => []
  else []

/-- Concatenation of `plyEntry` over the remaining main line starting at
position index `pos`. -/
noncomputable def entriesFrom (thresh_inac thresh_mistake thresh_blunder : ℝ)
    (oracle : ℕ → Option ℝ) : List String → ℕ → List AnnotatedMove
  | [], _ => []
  | san :: rest, pos =>
    plyEntry thresh_inac thresh_mistake thresh_blunder pos san
        (oracle pos) (oracle (pos + 1)) ++
      entriesFrom thresh_inac thresh_mistake thresh_blunder oracle rest (pos + 1)

lemma step_move_number (ti tm tb : ℝ) (player : Player) (san : String)
    (eb ea : Option ℝ) (s : DriverState) :
    (annotateStep ti tm tb player san eb ea s).move_number =
      if player = .black then s.move_number + 1 else s.move_number := rfl

lemma step_annotated (ti tm tb : ℝ) (pos : ℕ) (san : String)
    (eb ea : Option ℝ) (s : DriverState)
    (h : s.move_number = pos / 2 + 1) :
    (annotateStep ti tm tb (playerOfPos pos) san eb ea s).annotated =
      s.annotated ++ plyEntry ti tm tb pos san eb ea := by
  simp only [annotateStep, plyEntry, ← h]
  by_cases hmn : s.move_number > 2
  · simp only [if_pos hmn]
    rcases eb with _ | b
    · simp
    · rcases ea with _ | a
      · simp
      · rcases hc : classifySwing ti tm tb (swingOf (playerOfPos pos) b a)
          with _ | sev <;> simp [hc]
  · simp [if_neg hmn]

lemma playerOfPos_succ_move_number (pos : ℕ) (mn : ℕ)
    (h : mn = pos / 2 + 1) :
    (if playerOfPos pos = .black then mn + 1 else mn) = (pos + 1) / 2 + 1 := by
  rcases Nat.mod_two_eq_zero_or_one pos with hp | hp
  · have : playerOfPos pos = .white := by simp [playerOfPos, hp]
    rw [this]
    simp only [reduceCtorEq, if_false]
    omega
  · have : playerOfPos pos = .black := by simp [playerOfPos, hp]
    rw [this]
    simp only [if_true]
    omega

lemma go_annotated (ti tm tb : ℝ) (oracle : ℕ → Option ℝ) :
    ∀ (sans : List String) (pos : ℕ) (s : DriverState),
      s.move_number = pos / 2 + 1 →
      (annotateGo ti tm tb oracle sans pos s).annotated =
        s.annotated ++ entriesFrom ti tm tb oracle sans pos := by
  intro sans
  induction sans with
  | nil => intro pos s _; simp [annotateGo, entriesFrom]
  | cons san rest ih =>
    intro pos s h
    have hstep : (annotateStep ti tm tb (playerOfPos pos) san
        (oracle pos) (oracle (pos + 1)) s).move_number = (pos + 1) / 2 + 1 := by
      rw [step_move_number, h, playerOfPos_succ_move_number pos _ rfl]
    rw [show annotateGo ti tm tb oracle (san :: rest) pos s =
        annotateGo ti tm tb oracle rest (pos + 1)
          (annotateStep ti tm tb (playerOfPos pos) san
            (oracle pos) (oracle (pos + 1)) s) from rfl,
      ih (pos + 1) _ hstep,
      step_annotated ti tm tb pos san (oracle pos) (oracle (pos + 1)) s h,
      List.append_assoc]
    rfl

lemma playerStatsOf_updatePlayer (p : Player) (f : PlayerStats → PlayerStats)
    (st : Stats) :
    playerStatsOf p (updatePlayer p f st) = f (playerStatsOf p st) := by
  cases p <;> rfl

lemma severityCount_incSeverity_self (sev : Severity) (p : Player) (st : Stats) :
    severityCount sev (playerStatsOf p (incSeverity p sev st)) =
      severityCount sev (playerStatsOf p st) + 1 := by
  cases p <;> cases sev <;> rfl

lemma severityCount_addAccuracy (sev : Severity) (p q : Player) (a : ℝ)
    (st : Stats) :
    severityCount sev (playerStatsOf p (addAccuracy q a st)) =
      severityCount sev (playerStatsOf p st) := by
  cases p <;> cases q <;> cases sev <;> rfl

lemma severityCount_incMoves (sev : Severity) (p q : Player) (st : Stats) :
    severityCount sev (playerStatsOf p (incMoves q st)) =
      severityCount sev (playerStatsOf p st) := by
  cases p <;> cases q <;> cases sev <;> rfl

lemma severityCount_incTotal (sev : Severity) (p : Player) (st : Stats) :
    severityCount sev (playerStatsOf p (incTotal st)) =
      severityCount sev (playerStatsOf p st) := by
  cases p <;> cases sev <;> rfl

lemma playerStatsOf_incTotal (p : Player) (st : Stats) :
    playerStatsOf p (incTotal st) = playerStatsOf p st := by
  cases p <;> rfl

lemma moves_incMoves_self (p : Player) (st : Stats) :
    (playerStatsOf p (incMoves p st)).moves = (playerStatsOf p st).moves + 1 := by
  cases p <;> rfl

lemma accuracy_fields_incMoves (p q : Player) (st : Stats) :
    (playerStatsOf p (incMoves q st)).total_accuracy =
        (playerStatsOf p st).total_accuracy ∧
      (playerStatsOf p (incMoves q st)).accuracy_count =
        (playerStatsOf p st).accuracy_count := by
  cases p <;> cases q <;> exact ⟨rfl, rfl⟩

lemma total_moves_incTotal_incMoves (p : Player) (st : Stats) :
    (incTotal (incMoves p st)).total_moves = st.total_moves + 1 := by
  cases p <;> rfl

lemma step_unavailable_state (ti tm tb : ℝ) (player : Player) (san : String)
    (eb ea : Option ℝ) (s : DriverState) (h : eb = none ∨ ea = none) :
    (annotateStep ti tm tb player san eb ea s).stats =
        incTotal (incMoves player s.stats) ∧
      (annotateStep ti tm tb player san eb ea s).annotated = s.annotated := by
  rcases h with h | h
  · subst h
    by_cases hmn : s.move_number > 2 <;> simp [annotateStep, hmn]
  · subst h
    rcases eb with _ | b <;> by_cases hmn : s.move_number > 2 <;>
      simp [annotateStep, hmn]

lemma step_classified (ti tm tb : ℝ) (player : Player) (san : String)
    (b a : ℝ) (s : DriverState) (hmn : 2 < s.move_number) (sev : Severity)
    (hc : classifySwing ti tm tb (swingOf player b a) = some sev) :
    severityCount sev (playerStatsOf player
        (annotateStep ti tm tb player san (some b) (some a) s).stats) =
      severityCount sev (playerStatsOf player s.stats) + 1 ∧
    (annotateStep ti tm tb player san (some b) (some a) s).annotated =
      s.annotated ++
        [{ move_number := s.move_number, player := player, move := san,
           nag := sev, eval_change := swingOf player b a,
           move_accuracy := some (calculate_move_accuracy
             (winPercentOf player b) (winPercentOf player a)) }] := by
  simp only [annotateStep, gt_iff_lt, if_pos hmn, hc]
  exact ⟨by rw [severityCount_incSeverity_self, severityCount_addAccuracy,
      severityCount_incTotal, severityCount_incMoves], trivial⟩

lemma centipawns_to_win_percent_eq (c : ℝ) :
    centipawns_to_win_percent c = 100 / (1 + Real.exp (-0.00368208 * c)) := by
  have h : (0:ℝ) < 1 + Real.exp (-0.00368208 * c) := by positivity
  unfold centipawns_to_win_percent
  field_simp
  ring

lemma centipawns_to_win_percent_pos (c : ℝ) : 0 < centipawns_to_win_percent c := by
  rw [centipawns_to_win_percent_eq]
  positivity

lemma centipawns_to_win_percent_lt (c : ℝ) : centipawns_to_win_percent c < 100 := by
  rw [centipawns_to_win_percent_eq]
  have hE := Real.exp_pos (-0.00368208 * c)
  have h : (0:ℝ) < 1 + Real.exp (-0.00368208 * c) := by linarith
  rw [div_lt_iff h]
  nlinarith

lemma centipawns_to_win_percent_zero : centipawns_to_win_percent 0 = 50 := by
  unfold centipawns_to_win_percent
  norm_num

lemma calculate_move_accuracy_eq (wb wa : ℝ) :
    calculate_move_accuracy wb wa =
      max 0 (min 100 (103.1668 * Real.exp (-0.04354 * max 0 (wb - wa)) - 3.1669)) := by
  rcases lt_or_le (wb - wa) 0 with h | h
  · simp only [calculate_move_accuracy]
    rw [if_pos h, max_eq_left h.le]
  · simp only [calculate_move_accuracy]
    rw [if_neg (not_lt.mpr h), max_eq_right h]

lemma calculate_move_accuracy_floored (wb wa : ℝ) (h : wb - wa ≤ 0) :
    calculate_move_accuracy wb wa = 103.1668 - 3.1669 := by
  rw [calculate_move_accuracy_eq, max_eq_left h]
  norm_num

lemma raw_accuracy_neg_at_loss_100 :
    103.1668 * Real.exp (-0.04354 * 100) - 3.1669 < 0 := by
  have e1 : (2.7182818283:ℝ) < Real.exp 1 := Real.exp_one_gt_d9
  have h27 : (2.7:ℝ) ^ 4 < (Real.exp 1) ^ 4 := by
    apply pow_lt_pow_left (by linarith) (by norm_num)
    norm_num
  have hexp4 : (Real.exp 1) ^ 4 = Real.exp 4 := by
    rw [← Real.exp_nat_mul]
    norm_num
  have h4 : (53:ℝ) < Real.exp 4 := by nlinarith
  have hmono : Real.exp (-0.04354 * 100) ≤ Real.exp (-4) :=
    Real.exp_le_exp.mpr (by norm_num)
  have hneg : Real.exp (-4 : ℝ) = (Real.exp 4)⁻¹ := Real.exp_neg 4
  have hinv : (Real.exp 4)⁻¹ < (53:ℝ)⁻¹ := by
    apply inv_lt_inv_of_lt (by norm_num) h4
  rw [hneg] at hmono
  have hlt : Real.exp (-0.04354 * 100) < (53:ℝ)⁻¹ := lt_of_le_of_lt hmono hinv
  have hmul : 103.1668 * Real.exp (-0.04354 * 100) < 103.1668 * (53:ℝ)⁻¹ :=
    mul_lt_mul_of_pos_left hlt (by norm_num)
  have hfinal : (103.1668:ℝ) * (53:ℝ)⁻¹ < 3.1669 := by norm_num
  linarith

/-- A sample move notation for concrete instantiations. -/
def sampleSan : String := "e4"

/-- Main line of the 4-ply synthetic game of the end-to-end property. -/
def pliesC1 : List String := ["d4", "d5", "c4", "e6"]

/-- Reference-perspective evaluations [0.0, 0.2, 0.1, -1.0, -3.0] of the
synthetic game: value of the position after `n` plies. -/
noncomputable def oracleC1 : ℕ → Option ℝ := fun n =>
  if n = 0 then some 0
  else if n = 1 then some 0.2
  else if n = 2 then some 0.1
  else if n = 3 then some (-1)
  else if n = 4 then some (-3)
  else none

/-- A 3-ply main line whose third ply loses five pawns. -/
def pliesC2 : List String := ["d4", "d5", "c4"]

/-- Evaluations for `pliesC2`: level until the third ply drops to -5. -/
noncomputable def oracleC2 : ℕ → Option ℝ := fun n =>
  if n ≤ 2 then some 0
  else if n = 3 then some (-5)
  else none

/-- An oracle that always answers 0 pawns. -/
noncomputable def oracleZero : ℕ → Option ℝ := fun _ => some 0

/-- Claim C6 (confirmed): the win-probability converter is a total
deterministic real function into the open interval (0,100), mapping an
evaluation of 0 — and 0 pawns from either mover's perspective — to
exactly 50. -/
theorem win_percent_range_and_center :
    (∀ c : ℝ, 0 < centipawns_to_win_percent c ∧ centipawns_to_win_percent c < 100) ∧
    centipawns_to_win_percent 0 = 50 ∧
    (∀ (p : Player) (pawns : ℝ),
      0 < winPercentOf p pawns ∧ winPercentOf p pawns < 100) ∧
    (∀ p : Player, winPercentOf p 0 = 50) := by
  refine ⟨fun c => ⟨centipawns_to_win_percent_pos c, centipawns_to_win_percent_lt c⟩,
    centipawns_to_win_percent_zero, fun p pawns =>
      ⟨centipawns_to_win_percent_pos _, centipawns_to_win_percent_lt _⟩,
    fun p => ?_⟩
  cases p <;> simp [winPercentOf, centipawns_to_win_percent_zero]

/-- Claim C7 (confirmed): `calculate_move_accuracy` always lands in
[0,100]; it is non-increasing in the win-probability loss; a non-positive
loss gives exactly 103.1668 - 3.1669 (the maximal value, just below 100);
and at loss 100 the raw formula is negative, so the result clamps to 0. -/
theorem move_accuracy_clamped_and_monotone :
    (∀ wb wa : ℝ, 0 ≤ calculate_move_accuracy wb wa ∧
      calculate_move_accuracy wb wa ≤ 100) ∧
    (∀ wb1 wa1 wb2 wa2 : ℝ, wb1 - wa1 ≤ wb2 - wa2 →
      calculate_move_accuracy wb2 wa2 ≤ calculate_move_accuracy wb1 wa1) ∧
    (∀ w : ℝ, calculate_move_accuracy w w = 103.1668 - 3.1669) ∧
    (∀ wb wa w : ℝ, calculate_move_accuracy wb wa ≤ calculate_move_accuracy w w) ∧
    103.1668 * Real.exp (-0.04354 * 100) - 3.1669 < 0 ∧
    (∀ wb wa : ℝ, wb - wa = 100 → calculate_move_accuracy wb wa = 0) := by
  have hmono : ∀ wb1 wa1 wb2 wa2 : ℝ, wb1 - wa1 ≤ wb2 - wa2 →
      calculate_move_accuracy wb2 wa2 ≤ calculate_move_accuracy wb1 wa1 := by
    intro wb1 wa1 wb2 wa2 h
    rw [calculate_move_accuracy_eq, calculate_move_accuracy_eq]
    have h1 : max 0 (wb1 - wa1) ≤ max 0 (wb2 - wa2) := max_le_max le_rfl h
    have h2 : (-0.04354:ℝ) * max 0 (wb2 - wa2) ≤ -0.04354 * max 0 (wb1 - wa1) := by
      nlinarith
    have h3 := Real.exp_le_exp.mpr h2
    have h4 : 103.1668 * Real.exp (-0.04354 * max 0 (wb2 - wa2)) - 3.1669 ≤
        103.1668 * Real.exp (-0.04354 * max 0 (wb1 - wa1)) - 3.1669 := by nlinarith
    exact max_le_max le_rfl (min_le_min le_rfl h4)
  refine ⟨fun wb wa => ?_, hmono, fun w =>
    calculate_move_accuracy_floored w w (by simp), fun wb wa w => ?_,
    raw_accuracy_neg_at_loss_100, fun wb wa h => ?_⟩
  · rw [calculate_move_accuracy_eq]
    exact ⟨le_max_left _ _, max_le (by norm_num) (min_le_left _ _)⟩
  · rcases le_or_lt (wb - wa) 0 with h | h
    · rw [calculate_move_accuracy_floored wb wa h,
        calculate_move_accuracy_floored w w (by simp)]
    · exact hmono w w wb wa (by simpa using h.le)
  · rw [calculate_move_accuracy_eq, h]
    have hraw := raw_accuracy_neg_at_loss_100
    have hm : max (0:ℝ) 100 = 100 := by norm_num
    rw [hm, min_eq_right (by linarith), max_eq_left (by linarith)]

/-- Witness for C7 at a concrete pair of losses (40 versus 50). -/
theorem move_accuracy_clamped_and_monotone_witness :
    calculate_move_accuracy 80 30 ≤ calculate_move_accuracy 80 40 :=
  move_accuracy_clamped_and_monotone.2.1 80 40 80 30 (by norm_num)

/-- Claim C5 (confirmed): with valid threshold ordering, a swing exactly
at a negated threshold resolves to the more severe category, and any
swing strictly above the negated inaccuracy threshold is never flagged. -/
theorem classify_boundary_ties (ti tm tb : ℝ)
    (h0 : 0 < ti) (h1 : ti < tm) (h2 : tm < tb) :
    classifySwing ti tm tb (-tb) = some .blunder ∧
    classifySwing ti tm tb (-tm) = some .mistake ∧
    classifySwing ti tm tb (-ti) = some .inaccuracy ∧
    ∀ swing : ℝ, -ti < swing → classifySwing ti tm tb swing = none := by
  refine ⟨?_, ?_, ?_, ?_⟩
  · simp [classifySwing]
  · have hA : ¬(-tm ≤ -tb) := by linarith
    simp [classifySwing, hA]
  · have hA : ¬(-ti ≤ -tb) := by linarith
    have hB : ¬(-ti ≤ -tm) := by linarith
    simp [classifySwing, hA, hB]
  · intro swing hs
    have hA : ¬(swing ≤ -tb) := by linarith
    have hB : ¬(swing ≤ -tm) := by linarith
    have hC : ¬(swing ≤ -ti) := by linarith
    simp [classifySwing, hA, hB, hC]

/-- Witness for C5 at the default thresholds and swing exactly -1.8. -/
theorem classify_boundary_ties_witness :
    classifySwing 0.4 0.8 1.8 (-1.8) = some .blunder :=
  (classify_boundary_ties 0.4 0.8 1.8 (by norm_num) (by norm_num) (by norm_num)).1

/-- Claim C10 (confirmed): `evaluate_position` maps a centipawn score to
its value over 100, a mate score with positive distance to +100, a mate
score with distance at most 0 — including a delivered mate at distance 0,
whatever the winning side — to -100, and any other score kind to `none`. -/
theorem evaluate_position_cases :
    (∀ c : ℤ, evaluate_position (.cp c) = some ((c : ℝ) / 100.0)) ∧
    (∀ m : ℤ, 0 < m → evaluate_position (.mate m) = some 100.0) ∧
    (∀ m : ℤ, m ≤ 0 → evaluate_position (.mate m) = some (-100.0)) ∧
    evaluate_position (.mate 0) = some (-100.0) ∧
    evaluate_position .other = none := by
  refine ⟨fun c => rfl, fun m hm => ?_, fun m hm => ?_, ?_, rfl⟩
  · simp [evaluate_position, hm]
  · simp [evaluate_position, not_lt.mpr hm]
  · simp [evaluate_position]

/-- Witness for C10 at a mate-in-three score. -/
theorem evaluate_position_cases_witness :
    evaluate_position (.mate 3) = some 100.0 :=
  evaluate_position_cases.2.1 3 (by norm_num)

/-- Claim C8 (confirmed): finalisation guards both divisions — average
accuracy is sum divided by count only for a positive accuracy count and
the undefined marker otherwise; the error rate is 100 times severity-sum
over move count only for a positive move count and 0 otherwise. -/
theorem finalize_division_guards (ps : PlayerStats) :
    (ps.accuracy_count = 0 → averageAccuracy ps = none) ∧
    (0 < ps.accuracy_count →
      averageAccuracy ps = some (ps.total_accuracy / ps.accuracy_count)) ∧
    (ps.moves = 0 → errorRate ps = 0) ∧
    (0 < ps.moves →
      errorRate ps = 100 * (totalAnnotationCount ps : ℝ) / ps.moves) := by
  refine ⟨fun h => ?_, fun h => ?_, fun h => ?_, fun h => ?_⟩
  · simp [averageAccuracy, h]
  · simp [averageAccuracy, h]
  · simp [errorRate, h]
  · rw [errorRate, if_pos h]
    ring

/-- Witness for C8 on the all-zero player record. -/
theorem finalize_division_guards_witness :
    averageAccuracy initPlayerStats = none :=
  (finalize_division_guards initPlayerStats).1 rfl

/-- Claim C1 is false on the code: the 4-ply synthetic game does not
yield two annotated entries — the classification gate `move_number > 2`
compares full-move numbers, which are 1, 1, 2, 2 over these four plies,
so no ply is classified at all. -/
theorem synthetic_game_not_two_entries :
    (annotateGame 0.4 0.8 1.8 oracleC1 pliesC1).annotated.length ≠ 2 := by
  rw [annotateGame, go_annotated 0.4 0.8 1.8 oracleC1 pliesC1 0 _ (by norm_num)]
  norm_num [pliesC1, entriesFrom, plyEntry]

/-- Claim C1 (corrected): the 4-ply synthetic game with evaluations
[0.0, 0.2, 0.1, -1.0, -3.0] and thresholds (0.4, 0.8, 1.8) yields exactly
zero AnnotatedMove entries, while both players' move counts equal 2 and
four plies are counted in total. -/
theorem synthetic_game_zero_entries_and_counts :
    (annotateGame 0.4 0.8 1.8 oracleC1 pliesC1).annotated = [] ∧
    (annotateGame 0.4 0.8 1.8 oracleC1 pliesC1).stats.white.moves = 2 ∧
    (annotateGame 0.4 0.8 1.8 oracleC1 pliesC1).stats.black.moves = 2 ∧
    (annotateGame 0.4 0.8 1.8 oracleC1 pliesC1).stats.total_moves = 4 := by
  refine ⟨?_, ?_, ?_, ?_⟩
  · rw [annotateGame, go_annotated 0.4 0.8 1.8 oracleC1 pliesC1 0 _ (by norm_num)]
    norm_num [pliesC1, entriesFrom, plyEntry]
  all_goals
    simp +decide [annotateGame, annotateGo, annotateStep, pliesC1, oracleC1,
      playerOfPos, incMoves, incTotal, addAccuracy, updatePlayer, initStats,
      initPlayerStats]

/-- Claim C2 is false on the code: ply 3 of a game — past the claimed
two-ply warm-up, with both evaluations defined and a mover-perspective
swing of -5 pawns, far beyond every threshold — produces no
AnnotatedMove. -/
theorem ply3_large_swing_not_flagged :
    oracleC2 2 = some 0 ∧ oracleC2 3 = some (-5) ∧
    swingOf (playerOfPos 2) 0 (-5) ≤ -(0.4:ℝ) ∧
    (annotateGame 0.4 0.8 1.8 oracleC2 pliesC2).annotated = [] := by
  refine ⟨rfl, rfl, by norm_num [swingOf, playerOfPos], ?_⟩
  rw [annotateGame, go_annotated 0.4 0.8 1.8 oracleC2 pliesC2 0 _ (by norm_num)]
  norm_num [pliesC2, entriesFrom, plyEntry]

/-- Claim C2 (corrected): the warm-up exemption covers the first two full
moves, i.e. the first FOUR plies.  The annotated list of any run is
exactly the per-ply reference list `entriesFrom`; a ply at 0-based
position below 4 contributes nothing regardless of swing; a ply at
position 4 or later with both evaluations defined and a classified swing
contributes exactly its entry; the per-ply step then also increments the
mover's severity counter; and, for ordered thresholds, a swing is
classified precisely when it is at most the negated inaccuracy
threshold. -/
theorem warmup_two_full_moves_then_classified :
    (∀ (ti tm tb : ℝ) (oracle : ℕ → Option ℝ) (plies : List String),
      (annotateGame ti tm tb oracle plies).annotated =
        entriesFrom ti tm tb oracle plies 0) ∧
    (∀ (ti tm tb : ℝ) (pos : ℕ) (san : String) (eb ea : Option ℝ),
      pos < 4 → plyEntry ti tm tb pos san eb ea = []) ∧
    (∀ (ti tm tb : ℝ) (pos : ℕ) (san : String) (b a : ℝ) (sev : Severity),
      4 ≤ pos →
      classifySwing ti tm tb (swingOf (playerOfPos pos) b a) = some sev →
      plyEntry ti tm tb pos san (some b) (some a) =
        [{ move_number := pos / 2 + 1, player := playerOfPos pos, move := san,
           nag := sev, eval_change := swingOf (playerOfPos pos) b a,
           move_accuracy := some (calculate_move_accuracy
             (winPercentOf (playerOfPos pos) b)
             (winPercentOf (playerOfPos pos) a)) }]) ∧
    (∀ (ti tm tb : ℝ) (player : Player) (san : String) (b a : ℝ)
        (s : DriverState) (sev : Severity), 2 < s.move_number →
      classifySwing ti tm tb (swingOf player b a) = some sev →
      severityCount sev (playerStatsOf player
          (annotateStep ti tm tb player san (some b) (some a) s).stats) =
        severityCount sev (playerStatsOf player s.stats) + 1 ∧
      (annotateStep ti tm tb player san (some b) (some a) s).annotated =
        s.annotated ++
          [{ move_number := s.move_number, player := player, move := san,
             nag := sev, eval_change := swingOf player b a,
             move_accuracy := some (calculate_move_accuracy
               (winPercentOf player b) (winPercentOf player a)) }]) ∧
    (∀ (ti tm tb c : ℝ), ti ≤ tm → tm ≤ tb →
      (c ≤ -ti ↔ (classifySwing ti tm tb c).isSome = true)) := by
  refine ⟨fun ti tm tb oracle plies => ?_, fun ti tm tb pos san eb ea hlt => ?_,
    fun ti tm tb pos san b a sev h4 hc => ?_,
    fun ti tm tb player san b a s sev hmn hc =>
      step_classified ti tm tb player san b a s hmn sev hc,
    fun ti tm tb c h1 h2 => ?_⟩
  · rw [annotateGame, go_annotated ti tm tb oracle plies 0 _ (by norm_num)]
    simp
  · have hgate : ¬(pos / 2 + 1 > 2) := by omega
    simp [plyEntry, hgate]
  · have hgate : pos / 2 + 1 > 2 := by omega
    simp [plyEntry, hgate, hc]
  · unfold classifySwing
    split_ifs with hA hB hC
    · simp only [Option.isSome_some, iff_true]
      linarith
    · simp only [Option.isSome_some, iff_true]
      linarith
    · simp only [Option.isSome_some, iff_true]
      exact hC
    · simp only [Option.isSome_none, Bool.false_eq_true, iff_false]
      exact hC

/-- Witness for C2: ply 2 (0-based position 1) with a -5 pawn eval drop
produces no entry. -/
theorem warmup_two_full_moves_then_classified_witness :
    plyEntry 0.4 0.8 1.8 1 sampleSan (some 0) (some (-5)) = [] :=
  warmup_two_full_moves_then_classified.2.1 0.4 0.8 1.8 1 sampleSan
    (some 0) (some (-5)) (by norm_num)

/-- Claim C3 is false on the code: a threshold configuration violating
0 < inaccuracy < mistake < blunder (here 2, 0.5, 0.1) passes setup and
the driver runs to completion on a 3-ply game. -/
theorem inverted_thresholds_setup_succeeds :
    setupSucceeded (runAnalysis true true (some pliesC2) 2 0.5 0.1 oracleZero) =
      true := rfl

/-- Claim C3 (corrected): the implementation performs no threshold
validation at all — any threshold triple, ordered or not, passes the
setup guards and is handed unchanged to the driver, which processes the
plies with it. -/
theorem thresholds_reach_driver_unvalidated (ti tm tb : ℝ)
    (oracle : ℕ → Option ℝ) (plies : List String) :
    runAnalysis true true (some plies) ti tm tb oracle =
      .ok (annotateGame ti tm tb oracle plies) := rfl

/-- Claim C4 (confirmed): a ply whose before- or after-evaluation is
unavailable still counts once in the mover's move count and in the total
move count, leaves every accuracy sum, accuracy count and severity
counter of both players unchanged, appends no AnnotatedMove, and the
driver proceeds to the remaining plies. -/
theorem unavailable_eval_degrades_single_ply (ti tm tb : ℝ) (player : Player)
    (san : String) (eb ea : Option ℝ) (s : DriverState)
    (h : eb = none ∨ ea = none) :
    (playerStatsOf player (annotateStep ti tm tb player san eb ea s).stats).moves =
        (playerStatsOf player s.stats).moves + 1 ∧
    (annotateStep ti tm tb player san eb ea s).stats.total_moves =
        s.stats.total_moves + 1 ∧
    (∀ p : Player,
      (playerStatsOf p (annotateStep ti tm tb player san eb ea s).stats).total_accuracy =
          (playerStatsOf p s.stats).total_accuracy ∧
        (playerStatsOf p (annotateStep ti tm tb player san eb ea s).stats).accuracy_count =
          (playerStatsOf p s.stats).accuracy_count) ∧
    (∀ (p : Player) (sev : Severity),
      severityCount sev (playerStatsOf p (annotateStep ti tm tb player san eb ea s).stats) =
        severityCount sev (playerStatsOf p s.stats)) ∧
    (annotateStep ti tm tb player san eb ea s).annotated = s.annotated ∧
    (∀ (oracle : ℕ → Option ℝ) (rest : List String) (pos : ℕ),
      annotateGo ti tm tb oracle (san :: rest) pos s =
        annotateGo ti tm tb oracle rest (pos + 1)
          (annotateStep ti tm tb (playerOfPos pos) san (oracle pos)
            (oracle (pos + 1)) s)) := by
  obtain ⟨hstats, hann⟩ := step_unavailable_state ti tm tb player san eb ea s h
  refine ⟨?_, ?_, fun p => ?_, fun p sev => ?_, hann, fun _ _ _ => rfl⟩
  · rw [hstats, playerStatsOf_incTotal, moves_incMoves_self]
  · rw [hstats, total_moves_incTotal_incMoves]
  · rw [hstats, playerStatsOf_incTotal]
    exact accuracy_fields_incMoves p player s.stats
  · rw [hstats, severityCount_incTotal, severityCount_incMoves]

/-- Witness for C4: an unavailable before-evaluation on White's first ply
still bumps White's move count. -/
theorem unavailable_eval_degrades_single_ply_witness :
    (playerStatsOf .white (annotateStep 0.4 0.8 1.8 .white sampleSan none (some 1)
        { move_number := 1, stats := initStats, annotated := [] }).stats).moves =
      (playerStatsOf .white initStats).moves + 1 :=
  (unavailable_eval_degrades_single_ply 0.4 0.8 1.8 .white sampleSan none (some 1)
    { move_number := 1, stats := initStats, annotated := [] } (Or.inl rfl)).1

/-- Claim C9 is false on the code: a readable game containing no moves is
not rejected — the run completes normally with zeroed statistics and an
empty annotated-move list. -/
theorem no_moves_game_runs_ok :
    runAnalysis true true (some []) 0.4 0.8 1.8 oracleZero =
      .ok { move_number := 1, stats := initStats, annotated := [] } := rfl

/-- Claim C9 (corrected): only an input from which no game can be read at
all is a fatal setup error; a readable game with no moves completes
normally with zero moves counted and empty output. -/
theorem no_moves_completes_only_unreadable_fatal :
    mainSetup true true none = .error .gameUnreadable ∧
    ∀ (ti tm tb : ℝ) (oracle : ℕ → Option ℝ),
      runAnalysis true true (some []) ti tm tb oracle =
        .ok { move_number := 1, stats := initStats, annotated := [] } :=
  ⟨rfl, fun _ _ _ _ => rfl⟩

end Analyzer
